import Mathlib

/-!
Verification of the resilient-extraction core of a Singer tap for the
Dynamics BC / Lightspeed API family.  The definitions below are shallow
embeddings of the Python source: `validateResponse`, `getNextPageToken` and
`requestRecordsGo` come from `tap_lightspeed_rseries/example/client.py`
(class `dynamicsBcStream`), `updateAccessToken` from
`tap_lightspeed_rseries/auth.py` (`LightspeedOAuthAuthenticator`), and the
batch-fallback and child-sync functions from
`tap_r_lightspeed/example/streams.py` (`GeneralLedgerEntriesStream`).
-/

namespace TapVerify

/-! ## Substring search (Python `needle in haystack`) -/

/-- Boolean substring test on character lists, mirroring Python's
`needle in haystack` for strings. -/
def hasSubstring (needle : List Char) : List Char → Bool
  | [] => needle.isEmpty
  | c :: tl => needle.isPrefixOf (c :: tl) || hasSubstring needle tl

/-- The retriable-400 marker checked by `validate_response`. -/
def retryLaterMarker : String := "Please try again later."

/-- Python `"Please try again later." in response.text`. -/
def containsRetryMarker (text : String) : Bool :=
  hasSubstring retryLaterMarker.toList text.toList

/-! ## `dynamicsBcStream.validate_response` (client.py lines 153-177) -/

/-- Outcome of classifying one HTTP response: `retriableError` models raising
`RetriableAPIError`, `fatalError` models raising `FatalAPIError`, `ok` models
returning without raising. -/
inductive ApiOutcome
  | retriableError
  | fatalError
  | ok
deriving DecidableEq, Repr

/-- An HTTP response as consumed by `validate_response`: status code and body
text (reason/path only feed error messages, which the classification does not
depend on). -/
structure HttpResponse where
  status : Nat
  text : String
deriving DecidableEq, Repr

/-- Shallow embedding of `dynamicsBcStream.validate_response`: the `if`/`elif`
chain over the status code, in source order.  Note the final branch's
`response.status_code in [401]` disjunct is dead code (caught by the first
branch). -/
def validateResponse (r : HttpResponse) : ApiOutcome :=
  if r.status = 401 then .retriableError
  else if r.status = 400 ∧ containsRetryMarker r.text then .retriableError
  else if 400 ≤ r.status ∧ r.status < 500 then .fatalError
  else if (500 ≤ r.status ∧ r.status < 600) ∨ r.status = 401 then .retriableError
  else .ok

/-- The status-code mapping exactly as claim C1 states it (spec side, for
comparison): in particular it asserts that 429 raises a retriable error. -/
def claimC1Classification (status : Nat) (marker : Bool) : ApiOutcome :=
  if status = 401 then .retriableError
  else if status = 429 then .retriableError
  else if status = 400 ∧ marker then .retriableError
  else if 400 ≤ status ∧ status < 500 then .fatalError
  else if 500 ≤ status ∧ status < 600 then .retriableError
  else .ok

/-- The amended mapping: identical to the claim except that 429 receives no
special treatment and therefore falls into the generic 400-499 fatal branch. -/
def amendedC1Classification (status : Nat) (marker : Bool) : ApiOutcome :=
  if status = 401 then .retriableError
  else if status = 400 ∧ marker then .retriableError
  else if 400 ≤ status ∧ status < 500 then .fatalError
  else if 500 ≤ status ∧ status < 600 then .retriableError
  else .ok

/-- C1 counterexample: a 429 response is classified as a fatal client error by
`validate_response` (it matches the generic 400-499 branch), while the claim
says a 429 raises a retriable error. -/
theorem c1_429_is_fatal_not_retriable :
    validateResponse ⟨429, ""⟩ = ApiOutcome.fatalError ∧
    claimC1Classification 429 (containsRetryMarker "") = ApiOutcome.retriableError := by
  constructor <;> decide

/-- C1 (amended): `validate_response` maps every status exactly as the claim
states except for 429, which raises a fatal client error like any other
unlisted 400-499 status: 401 is retriable, a 400 whose body contains the
"Please try again later." marker is retriable, every other 400-499 status
(429 included) is fatal, 500-599 is retriable, and 200 raises nothing. -/
theorem c1_validate_response_classification (r : HttpResponse) :
    validateResponse r = amendedC1Classification r.status (containsRetryMarker r.text) := by
  unfold validateResponse amendedC1Classification
  rcases r with ⟨s, t⟩
  dsimp only
  split_ifs <;> simp_all

/-- Witness for C1's amended theorem at a concrete response: a 500 response is
classified as retriable. -/
theorem c1_validate_response_classification_witness :
    validateResponse ⟨500, "oops"⟩ = amendedC1Classification 500 (containsRetryMarker "oops") :=
  c1_validate_response_classification ⟨500, "oops"⟩

/-! ## Pagination: `get_next_page_token` and `request_records` (client.py) -/

/-- The server-provided continuation link of a response body, reduced to its
parsed query parameters (the work of `urlparse` + `parse_qs` on the
`@odata.nextLink` URL; `parse_qs` drops blank values, so every pair carries a
non-empty value and a key maps to the list of its values). -/
structure NextLink where
  query : List (String × String)
deriving DecidableEq, Repr

/-- Python `parse_qs(...).get(key)` up to the empty-dictionary case: the list
of values recorded for `key` (an empty list plays the role of the falsy
`None`/missing-key result). -/
def qsGet (q : List (String × String)) (k : String) : List String :=
  (q.filter (fun kv => kv.1 == k)).map (fun kv => kv.2)

/-- Shallow embedding of `dynamicsBcStream.get_next_page_token`: when the body
has a continuation link whose query holds both an `aid` and a `$skiptoken`
value, return the composite token string; otherwise return `None`.  (The
`previous_token` argument of the Python method is unused by its body.) -/
def getNextPageToken (nextLink : Option NextLink) : Option String :=
  match nextLink with
  | none => none
  | some link =>
    match qsGet link.query "aid", qsGet link.query "$skiptoken" with
    | a :: _, s :: _ => some ("&aid=" ++ a ++ "&$skiptoken=" ++ s)
    | _, _ => none

/-- One scripted page of the server: the records parsed from the body and the
body's continuation link (if any). -/
structure Page (α : Type) where
  records : List α
  nextLink : Option NextLink
deriving DecidableEq

/-- The continuation token extracted after fetching a page. -/
def pageToken {α : Type} (p : Page α) : Option String :=
  getNextPageToken p.nextLink

/-- How one run of `request_records` ends: `finished` models the generator
returning (next token `None`), `loopError t` models the
`RuntimeError("Loop detected in pagination...")` raised at token `t`, and
`pending t` marks a script too short for the run (the loop was about to issue
one more request with token `t`). -/
inductive FetchOutcome
  | finished
  | loopError (t : String)
  | pending (t : Option String)
deriving DecidableEq, Repr

/-- Shallow embedding of the `request_records` loop of `dynamicsBcStream`,
run against a scripted list of responses consumed in order.  Returns the
records yielded (in order), the number of page requests issued, and the
outcome.  `prev` is the token used for the upcoming request
(`next_page_token` in the Python loop, `None` at first). -/
def requestRecordsGo {α : Type} (prev : Option String) :
    List (Page α) → List α × Nat × FetchOutcome
  | [] => ([], 0, .pending prev)
  | p :: rest =>
    match pageToken p with
    | none => (p.records, 1, .finished)
    | some t =>
      if prev = some t then (p.records, 1, .loopError t)
      else
        let r := requestRecordsGo (some t) rest
        (p.records ++ r.1, r.2.1 + 1, r.2.2)

/-- `request_records` started as in the source, with `next_page_token = None`. -/
def requestRecords {α : Type} (pages : List (Page α)) : List α × Nat × FetchOutcome :=
  requestRecordsGo none pages

/-- Unfolding step of the loop at a page whose token is fresh. -/
theorem requestRecordsGo_cons_some {α : Type} (prev : Option String) (p : Page α)
    (rest : List (Page α)) (t : String) (hpt : pageToken p = some t)
    (hne : prev ≠ some t) :
    requestRecordsGo prev (p :: rest) =
      (p.records ++ (requestRecordsGo (some t) rest).1,
        (requestRecordsGo (some t) rest).2.1 + 1,
        (requestRecordsGo (some t) rest).2.2) := by
  conv_lhs => rw [requestRecordsGo]
  rw [hpt]
  simp only [if_neg hne]

/-- The loop raises the pagination-loop error as soon as an extracted token
repeats the previous one, without touching the rest of the script. -/
theorem requestRecordsGo_loop {α : Type} (a : List (Page α)) (prev : Option String)
    (p q : Page α) (b : List (Page α)) (tp : String)
    (hp : pageToken p = some tp) (hq : pageToken q = some tp)
    (hchain : List.Chain' (· ≠ ·) (prev :: (a ++ [p]).map pageToken))
    (hsome : ∀ x ∈ (a ++ [p]).map pageToken, x.isSome) :
    requestRecordsGo prev (a ++ p :: q :: b) =
      (((a ++ [p, q]).map Page.records).flatten, a.length + 2, .loopError tp) := by
  induction a generalizing prev with
  | nil =>
    have hne : prev ≠ some tp := by
      simp only [List.nil_append, List.map_cons, List.map_nil, hp] at hchain
      exact (List.chain'_cons.mp hchain).1
    simp [requestRecordsGo, hp, hq, hne]
  | cons x a ih =>
    have hx : (pageToken x).isSome := hsome _ (by simp)
    obtain ⟨tx, htx⟩ := Option.isSome_iff_exists.mp hx
    have hchain2 : List.Chain' (· ≠ ·) (some tx :: (a ++ [p]).map pageToken) := by
      rw [List.cons_append, List.map_cons, List.chain'_cons, htx] at hchain
      exact hchain.2
    have hne : prev ≠ some tx := by
      rw [List.cons_append, List.map_cons, List.chain'_cons, htx] at hchain
      exact hchain.1
    have hsome2 : ∀ y ∈ (a ++ [p]).map pageToken, y.isSome := by
      intro y hy
      exact hsome y (by rw [List.cons_append, List.map_cons]; exact List.mem_cons_of_mem _ hy)
    have hrec := ih (some tx) hchain2 hsome2
    rw [List.cons_append]
    simp only [requestRecordsGo, htx, if_neg hne, hrec]
    simp [Nat.add_assoc]

/-- As long as no extracted token is a non-null repeat of the token of the
request that produced it, the loop never raises the pagination-loop error. -/
theorem requestRecordsGo_no_loop {α : Type} (pages : List (Page α)) (prev : Option String)
    (hchain : List.Chain' (fun x y => y.isSome → x ≠ y) (prev :: pages.map pageToken)) :
    ∀ t, (requestRecordsGo prev pages).2.2 ≠ .loopError t := by
  induction pages generalizing prev with
  | nil => intro t; simp [requestRecordsGo]
  | cons p rest ih =>
    intro t
    rw [List.map_cons, List.chain'_cons] at hchain
    obtain ⟨hhead, htail⟩ := hchain
    cases hpt : pageToken p with
    | none => simp [requestRecordsGo, hpt]
    | some tp =>
      rw [hpt] at hhead htail
      have hne : prev ≠ some tp := hhead (by simp)
      simp only [requestRecordsGo, hpt, if_neg hne]
      exact ih (some tp) htail t

/-- A list whose `getLast?` is `some a` contains `a`. -/
theorem mem_of_getLast?_eq {α : Type} {l : List α} {a : α} (h : l.getLast? = some a) :
    a ∈ l := by
  obtain ⟨hne, heq⟩ := List.mem_getLast?_eq_getLast (Option.mem_def.mpr h)
  rw [heq]
  exact List.getLast_mem hne

/-- When the scripted tokens are pairwise distinct, end in `none`, and none of
them collides with the token of the pending request, the loop consumes every
page, yields all records in order, and finishes after the `none` token. -/
theorem requestRecordsGo_complete {α : Type} (pages : List (Page α)) (prev : Option String)
    (hlast : (pages.map pageToken).getLast? = some none)
    (hdist : List.Pairwise (· ≠ ·) (pages.map pageToken))
    (hprev : ∀ x ∈ pages.map pageToken, x.isSome → prev ≠ x) :
    requestRecordsGo prev pages =
      ((pages.map Page.records).flatten, pages.length, .finished) := by
  induction pages generalizing prev with
  | nil => simp at hlast
  | cons p rest ih =>
    rw [List.map_cons] at hlast hdist hprev
    rw [List.pairwise_cons] at hdist
    cases hpt : pageToken p with
    | none =>
      rw [hpt] at hlast hdist
      cases hr : rest with
      | nil =>
        subst hr
        simp [requestRecordsGo, hpt]
      | cons q rest2 =>
        exfalso
        subst hr
        have hmap : (q :: rest2).map pageToken = pageToken q :: rest2.map pageToken :=
          List.map_cons ..
        rw [hmap, List.getLast?_cons_cons] at hlast
        have hmem : (none : Option String) ∈ (q :: rest2).map pageToken := by
          rw [hmap]
          exact mem_of_getLast?_eq hlast
        exact hdist.1 none hmem rfl
    | some tp =>
      rw [hpt] at hlast hdist hprev
      have hne : prev ≠ some tp := hprev (some tp) (List.mem_cons_self _ _) (by simp)
      cases hr : rest with
      | nil =>
        subst hr
        simp at hlast
      | cons q rest2 =>
        subst hr
        have hmap : (q :: rest2).map pageToken = pageToken q :: rest2.map pageToken :=
          List.map_cons ..
        rw [hmap, List.getLast?_cons_cons, ← hmap] at hlast
        have hprev2 : ∀ x ∈ (q :: rest2).map pageToken, x.isSome → some tp ≠ x := by
          intro x hx _
          exact hdist.1 x hx
        have hrec := ih (some tp) hlast hdist.2 hprev2
        rw [requestRecordsGo_cons_some prev p _ tp hpt hne, hrec]
        simp

/-- C3: if after some page the extracted continuation token is non-null and
equal to the token extracted after the previous page — the run having reached
that page, i.e. all earlier tokens were non-null and no earlier adjacent pair
was equal — then `request_records` raises the pagination-loop error right
after yielding that page's records, issuing no further page request (the tail
`b` of the script is never consumed); and conversely, when every extracted
token is null or differs from its predecessor, the loop error is never
raised. -/
theorem c3_pagination_cycle_error :
    (∀ (a : List (Page String)) (p q : Page String) (b : List (Page String)) (tp : String),
      pageToken p = some tp →
      pageToken q = some tp →
      List.Chain' (· ≠ ·) ((none : Option String) :: (a ++ [p]).map pageToken) →
      (∀ x ∈ (a ++ [p]).map pageToken, x.isSome) →
      requestRecords (a ++ p :: q :: b) =
        (((a ++ [p, q]).map Page.records).flatten, a.length + 2, .loopError tp)) ∧
    (∀ pages : List (Page String),
      List.Chain' (fun x y => y.isSome → x ≠ y)
        ((none : Option String) :: pages.map pageToken) →
      ∀ t, (requestRecords pages).2.2 ≠ .loopError t) := by
  constructor
  · intro a p q b tp hp hq hchain hsome
    exact requestRecordsGo_loop a none p q b tp hp hq hchain hsome
  · intro pages hchain t
    exact requestRecordsGo_no_loop pages none hchain t

/-- A concrete page carrying a continuation link with both query parameters. -/
def pageWithToken (recs : List String) (aid sk : String) : Page String :=
  ⟨recs, some ⟨[("aid", aid), ("$skiptoken", sk)]⟩⟩

/-- A concrete final page: no continuation link. -/
def lastPage (recs : List String) : Page String :=
  ⟨recs, none⟩

/-- Witness for C3: a two-page script where page 2 repeats page 1's token
stops with the loop error after two requests (the third scripted page is
never requested), and a one-page script with no link raises no loop error. -/
theorem c3_pagination_cycle_error_witness :
    requestRecords
        [pageWithToken ["r1", "r2"] "1" "s1", pageWithToken ["r3"] "1" "s1",
          lastPage ["zz"]] =
      (["r1", "r2", "r3"], 2, .loopError "&aid=1&$skiptoken=s1") ∧
    (requestRecords [lastPage ["r"]]).2.2 ≠ FetchOutcome.loopError "x" := by
  constructor
  · have h := c3_pagination_cycle_error.1 [] (pageWithToken ["r1", "r2"] "1" "s1")
      (pageWithToken ["r3"] "1" "s1") [lastPage ["zz"]] "&aid=1&$skiptoken=s1"
      (by decide) (by decide)
      (by
        simp only [List.nil_append, List.map_cons, List.map_nil]
        exact List.chain'_cons.mpr ⟨by decide, List.chain'_singleton _⟩)
      (by decide)
    simpa using h
  · exact c3_pagination_cycle_error.2 [lastPage ["r"]]
      (by
        simp only [List.map_cons, List.map_nil]
        exact List.chain'_cons.mpr ⟨by decide, List.chain'_singleton _⟩) "x"

/-- C8: for a scripted page sequence whose extracted tokens are pairwise
distinct and end in null, `request_records` yields every record of every page
in page order, issues exactly one request per page, and terminates normally
after the null-token page. -/
theorem c8_pagination_termination (pages : List (Page String))
    (hlast : (pages.map pageToken).getLast? = some none)
    (hdist : List.Pairwise (· ≠ ·) (pages.map pageToken)) :
    requestRecords pages =
      ((pages.map Page.records).flatten, pages.length, .finished) :=
  requestRecordsGo_complete pages none hlast hdist
    (fun x _ hx => by
      cases x with
      | none => simp at hx
      | some t => exact fun h => by cases h)

/-- Witness for C8: a three-page script with tokens T1, T2, null yields all
five records in order with exactly three requests. -/
theorem c8_pagination_termination_witness :
    requestRecords
        [pageWithToken ["r1", "r2"] "1" "s1", pageWithToken ["r3", "r4"] "2" "s2",
          lastPage ["r5"]] =
      (["r1", "r2", "r3", "r4", "r5"], 3, .finished) := by
  have h := c8_pagination_termination
    [pageWithToken ["r1", "r2"] "1" "s1", pageWithToken ["r3", "r4"] "2" "s2",
      lastPage ["r5"]] (by decide) (by decide)
  simpa using h

/-- C10: when a response body carries a continuation link whose query string
lacks the `aid` parameter or the `$skiptoken` parameter,
`get_next_page_token` returns null, and `request_records` terminates normally
right after that page — its records are yielded, exactly one request is
issued from that point, and no error is raised — even though the server
advertised a further page. -/
theorem c10_partial_link_terminates (link : NextLink)
    (h : qsGet link.query "aid" = [] ∨ qsGet link.query "$skiptoken" = [])
    (p : Page String) (hp : p.nextLink = some link)
    (prev : Option String) (rest : List (Page String)) :
    getNextPageToken (some link) = none ∧
    requestRecordsGo prev (p :: rest) = (p.records, 1, .finished) := by
  have h1 : getNextPageToken (some link) = none := by
    rcases h with h | h
    · simp only [getNextPageToken, h]
    · simp only [getNextPageToken, h]
      cases qsGet link.query "aid" <;> rfl
  refine ⟨h1, ?_⟩
  have hpt : pageToken p = none := by
    unfold pageToken
    rw [hp, h1]
  simp [requestRecordsGo, hpt]

/-- Witness for C10: a page whose link has an `aid` value but no `$skiptoken`
terminates the run normally after its own records. -/
theorem c10_partial_link_terminates_witness :
    getNextPageToken (some ⟨[("aid", "1")]⟩) = none ∧
    requestRecordsGo none [(⟨["r1", "r2"], some ⟨[("aid", "1")]⟩⟩ : Page String)] =
      (["r1", "r2"], 1, .finished) :=
  c10_partial_link_terminates ⟨[("aid", "1")]⟩ (Or.inr (by decide))
    ⟨["r1", "r2"], some ⟨[("aid", "1")]⟩⟩ rfl none []

/-! ## Token refresh: `LightspeedOAuthAuthenticator.update_access_token` (auth.py) -/

/-- The JSON body of a successful token response.  `refresh_token` is either
present with a string value or absent; `expires_in` is absent (`none`),
present but null (`some none`), or present with an integer
(`some (some v)`) — the code has an explicit path for a null `expires_in`. -/
structure TokenJson where
  access_token : String
  refresh_token : Option String
  expires_in : Option (Option Int)
deriving DecidableEq, Repr

/-- The slice of the persisted tap config touched by `update_access_token`
(`self._tap._config`): keys `access_token`, `refresh_token`, `expires`
(absolute epoch seconds) and `expires_in`. -/
structure TapConfig where
  access_token : Option String
  refresh_token : Option String
  expires : Option Int
  expires_in : Option Int
deriving DecidableEq, Repr

/-- Success path of `update_access_token` (auth.py lines 164-207): store the
returned `access_token`; overwrite `refresh_token` only when the response
carries the key; compute `expires_in` via `token_json.get("expires_in", 3600)`;
set `expires = int(request_time.timestamp()) + int(expires_in)` only under
the truthiness guard `if self.expires_in:` (so a null or zero `expires_in`
leaves `expires` untouched); always store `expires_in`. -/
def applyTokenJson (cfg : TapConfig) (requestTime : Int) (tok : TokenJson) : TapConfig :=
  let expiresIn : Option Int :=
    match tok.expires_in with
    | none => some 3600
    | some v => v
  let cfg1 := { cfg with access_token := some tok.access_token }
  let cfg2 :=
    match tok.refresh_token with
    | some rt => { cfg1 with refresh_token := some rt }
    | none => cfg1
  let cfg3 :=
    match expiresIn with
    | some e => if e ≠ 0 then { cfg2 with expires := some (requestTime + e) } else cfg2
    | none => cfg2
  { cfg3 with expires_in := expiresIn }

/-- One HTTP response of the token endpoint: status code, optional
`Retry-After` header, and (for successful responses) the parsed JSON body. -/
structure OAuthResponse where
  status : Nat
  retryAfter : Option String
  body : TokenJson
deriving DecidableEq, Repr

/-- Outcome of `update_access_token`: the `RuntimeError("Failed OAuth
login...")` raised after `raise_for_status`, or the updated persisted
config. -/
inductive RefreshResult
  | authError
  | refreshed (cfg : TapConfig)
deriving DecidableEq, Repr

/-- Observable trace of one `update_access_token` call: the sleeps performed
(in seconds, in order), the number of POSTs issued to the token endpoint, and
the outcome. -/
structure RefreshTrace where
  sleeps : List Int
  posts : Nat
  result : RefreshResult
deriving DecidableEq, Repr

/-- Shallow embedding of `update_access_token` (auth.py lines 72-207) against
a two-response script: `first` answers the initial POST, `second` answers the
single retry POST (when one is made).  `parseHttpDate` stands for
`email.utils.parsedate_to_datetime` (`none` = raises), `now` for `utc_now()`
at the header check, `requestTime` for the `request_time` taken before the
first POST.  On a 429 first response: a parseable `Retry-After` strictly in
the future sleeps `retry_time - now` and retries once; a parseable date not
in the future falls through with the original 429 and no retry (the retry
POST sits inside `if wait_seconds > 0`); a missing or unparseable header
sleeps 60 and retries once.  Then `raise_for_status` turns any 4xx/5xx into
the auth failure, and a 2xx body is applied via `applyTokenJson`.
`rateLimit429Step` is the 429 block (auth.py lines 109-141), returning the
response left to classify, the sleeps performed, and the number of retry
POSTs issued. -/
def rateLimit429Step (now : Int) (parseHttpDate : String → Option Int)
    (first second : OAuthResponse) : OAuthResponse × List Int × Nat :=
  if first.status = 429 then
    match first.retryAfter with
    | some ra =>
      match parseHttpDate ra with
      | some retryTime =>
        let waitSeconds := retryTime - now
        if 0 < waitSeconds then (second, [waitSeconds], 1)
        else (first, ([] : List Int), 0)
      | none => (second, [(60 : Int)], 1)
    | none => (second, [(60 : Int)], 1)
  else (first, ([] : List Int), 0)

/-- The whole `update_access_token` call: run the 429 block, then
`raise_for_status` (auth failure on 4xx/5xx) and, on success, the config
update of `applyTokenJson`. -/
def updateAccessToken (cfg : TapConfig) (requestTime now : Int)
    (parseHttpDate : String → Option Int) (first second : OAuthResponse) :
    RefreshTrace :=
  let step := rateLimit429Step now parseHttpDate first second
  if 400 ≤ step.1.status ∧ step.1.status < 600 then
    { sleeps := step.2.1, posts := 1 + step.2.2, result := .authError }
  else
    { sleeps := step.2.1, posts := 1 + step.2.2,
      result := .refreshed (applyTokenJson cfg requestTime step.1.body) }

/-- The sleeps of one refresh call are exactly the sleeps of its 429 step. -/
theorem updateAccessToken_sleeps (cfg : TapConfig) (requestTime now : Int)
    (pd : String → Option Int) (first second : OAuthResponse) :
    (updateAccessToken cfg requestTime now pd first second).sleeps =
      (rateLimit429Step now pd first second).2.1 := by
  unfold updateAccessToken
  dsimp only
  split <;> rfl

/-- The POST count of one refresh call is one plus the retries of its 429
step. -/
theorem updateAccessToken_posts (cfg : TapConfig) (requestTime now : Int)
    (pd : String → Option Int) (first second : OAuthResponse) :
    (updateAccessToken cfg requestTime now pd first second).posts =
      1 + (rateLimit429Step now pd first second).2.2 := by
  unfold updateAccessToken
  dsimp only
  split <;> rfl

/-- The 429 handling exactly as claim C2 states it (spec side): keyed on the
header being absent (`none`), present but unparseable (`some none`), or
parsed with computed wait `w` (`some (some w)`); in every case exactly one
retry POST, with sleep `max 0 w` in the parsed case and 60 otherwise. -/
def claimC2Backoff (hdr : Option (Option Int)) : List Int × Nat :=
  match hdr with
  | some (some w) => ([max 0 w], 1)
  | some none => ([60], 1)
  | none => ([60], 1)

/-- C2 counterexample: a 429 whose `Retry-After` parses to a date 5 seconds in
the past.  The claim prescribes a sleep of `max(0, -5) = 0` seconds and
exactly one retry POST; the code performs no sleep and no retry at all (one
single POST) and fails, because the retry sits inside `if wait_seconds > 0`. -/
theorem c2_past_retry_after_no_retry :
    updateAccessToken ⟨none, some "R0", some 111, none⟩ 1000 100 (fun _ => some 95)
        ⟨429, some "hdr", ⟨"", none, none⟩⟩ ⟨200, none, ⟨"A", some "R1", none⟩⟩ =
      ⟨[], 1, .authError⟩ ∧
    claimC2Backoff (some (some (95 - 100))) = ([0], 1) := by
  constructor <;> decide

/-- C2 (amended): on a 429 token-endpoint response, if `Retry-After` is
present and parses to a date strictly in the future the code sleeps
`retry_time - now` seconds and re-issues the POST exactly once more; if it is
absent or unparseable the code sleeps a fixed 60 seconds and re-issues the
POST exactly once more; but if it parses to a date at or before `now` the
code neither sleeps nor retries — the original 429 proceeds to the fatal
auth failure.  In every case at most two POSTs are issued at this layer. -/
theorem c2_rate_limit_backoff (cfg : TapConfig) (requestTime now : Int)
    (pd : String → Option Int) (first second : OAuthResponse)
    (h429 : first.status = 429) :
    (first.retryAfter = none →
      (updateAccessToken cfg requestTime now pd first second).sleeps = [60] ∧
      (updateAccessToken cfg requestTime now pd first second).posts = 2) ∧
    (∀ ra, first.retryAfter = some ra → pd ra = none →
      (updateAccessToken cfg requestTime now pd first second).sleeps = [60] ∧
      (updateAccessToken cfg requestTime now pd first second).posts = 2) ∧
    (∀ ra rt, first.retryAfter = some ra → pd ra = some rt → now < rt →
      (updateAccessToken cfg requestTime now pd first second).sleeps = [rt - now] ∧
      (updateAccessToken cfg requestTime now pd first second).posts = 2) ∧
    (∀ ra rt, first.retryAfter = some ra → pd ra = some rt → rt ≤ now →
      (updateAccessToken cfg requestTime now pd first second).sleeps = [] ∧
      (updateAccessToken cfg requestTime now pd first second).posts = 1 ∧
      (updateAccessToken cfg requestTime now pd first second).result = .authError) ∧
    (updateAccessToken cfg requestTime now pd first second).posts ≤ 2 := by
  refine ⟨?_, ?_, ?_, ?_, ?_⟩
  · intro hra
    rw [updateAccessToken_sleeps, updateAccessToken_posts]
    simp [rateLimit429Step, h429, hra]
  · intro ra hra hpd
    rw [updateAccessToken_sleeps, updateAccessToken_posts]
    simp [rateLimit429Step, h429, hra, hpd]
  · intro ra rt hra hpd hfut
    have hw : (0 : Int) < rt - now := by omega
    rw [updateAccessToken_sleeps, updateAccessToken_posts]
    simp [rateLimit429Step, h429, hra, hpd, hw]
  · intro ra rt hra hpd hpast
    have hw : ¬ (0 : Int) < rt - now := by omega
    have hstep : rateLimit429Step now pd first second = (first, [], 0) := by
      simp [rateLimit429Step, h429, hra, hpd, hw]
    have h400 : 400 ≤ first.status ∧ first.status < 600 := by omega
    refine ⟨?_, ?_, ?_⟩
    · rw [updateAccessToken_sleeps, hstep]
    · rw [updateAccessToken_posts, hstep]
      rfl
    · simp only [updateAccessToken, hstep]
      rw [if_pos h400]
  · rw [updateAccessToken_posts]
    simp only [rateLimit429Step, h429, if_pos rfl]
    rcases first.retryAfter with _ | ra
    · simp
    · dsimp only
      rcases hpd : pd ra with _ | rt
      · simp
      · simp only [if_true]
        split <;> simp

/-- Witness for C2's amended theorem: with `Retry-After` parsing 5 seconds
into the future, the refresher sleeps 5 seconds and issues exactly two
POSTs. -/
theorem c2_rate_limit_backoff_witness :
    (updateAccessToken ⟨none, some "R0", some 111, none⟩ 1000 100 (fun _ => some 105)
        ⟨429, some "hdr", ⟨"", none, none⟩⟩ ⟨200, none, ⟨"A", some "R1", none⟩⟩).sleeps =
      [5] ∧
    (updateAccessToken ⟨none, some "R0", some 111, none⟩ 1000 100 (fun _ => some 105)
        ⟨429, some "hdr", ⟨"", none, none⟩⟩ ⟨200, none, ⟨"A", some "R1", none⟩⟩).posts = 2 := by
  have h := (c2_rate_limit_backoff ⟨none, some "R0", some 111, none⟩ 1000 100
    (fun _ => some 105) ⟨429, some "hdr", ⟨"", none, none⟩⟩
    ⟨200, none, ⟨"A", some "R1", none⟩⟩ rfl).2.2.1 "hdr" 105 rfl rfl (by decide)
  simpa using h

/-- C4 counterexample: a successful refresh whose response carries
`expires_in = 0`.  The claim says the persisted `expires` must equal
`request_time + 0`; under the truthiness guard `if self.expires_in:` the code
leaves the stale `expires` (here 111) untouched. -/
theorem c4_zero_expires_in_not_persisted :
    (applyTokenJson ⟨none, some "R0", some 111, none⟩ 1000
        ⟨"A", none, some (some 0)⟩).expires = some 111 ∧
    (applyTokenJson ⟨none, some "R0", some 111, none⟩ 1000
        ⟨"A", none, some (some 0)⟩).expires ≠ some (1000 + 0) := by
  constructor <;> decide

/-- C4 (amended): after every successful token refresh the persisted config
holds the server's `access_token`; holds the server's `refresh_token` when
the response includes one and the pre-refresh value otherwise; and holds
`expires = request_time + expires_in`, where `expires_in` defaults to 3600
when absent from the response — except that a response carrying `expires_in`
equal to 0 or null leaves `expires` unchanged (the guard `if
self.expires_in:` is falsy).  The final conjunct ties this to the full call:
a 200 first response yields exactly this config with one POST and no
sleep. -/
theorem c4_token_refresh_persistence (cfg : TapConfig) (requestTime : Int)
    (tok : TokenJson) :
    (applyTokenJson cfg requestTime tok).access_token = some tok.access_token ∧
    (∀ rt, tok.refresh_token = some rt →
      (applyTokenJson cfg requestTime tok).refresh_token = some rt) ∧
    (tok.refresh_token = none →
      (applyTokenJson cfg requestTime tok).refresh_token = cfg.refresh_token) ∧
    (tok.expires_in = none →
      (applyTokenJson cfg requestTime tok).expires = some (requestTime + 3600)) ∧
    (∀ e : Int, tok.expires_in = some (some e) → e ≠ 0 →
      (applyTokenJson cfg requestTime tok).expires = some (requestTime + e)) ∧
    (tok.expires_in = some (some 0) ∨ tok.expires_in = some none →
      (applyTokenJson cfg requestTime tok).expires = cfg.expires) ∧
    (∀ (now : Int) (pd : String → Option Int) (first second : OAuthResponse),
      first.status = 200 → first.body = tok →
      updateAccessToken cfg requestTime now pd first second =
        ⟨[], 1, .refreshed (applyTokenJson cfg requestTime tok)⟩) := by
  refine ⟨?_, ?_, ?_, ?_, ?_, ?_, ?_⟩
  · cases htok : tok.refresh_token <;>
      simp [applyTokenJson, htok] <;>
      (cases hexp : tok.expires_in) <;> simp [hexp] <;>
      (rename_i v; cases v) <;> simp <;> split <;> rfl
  · intro rt hrt
    simp only [applyTokenJson, hrt]
    cases hexp : tok.expires_in <;> simp <;>
      (try rename_i v; try cases v) <;> simp <;> (try split) <;> rfl
  · intro hrt
    simp only [applyTokenJson, hrt]
    cases hexp : tok.expires_in <;> simp <;>
      (try rename_i v; try cases v) <;> simp <;> (try split) <;> rfl
  · intro hexp
    simp only [applyTokenJson, hexp]
    cases tok.refresh_token <;> simp
  · intro e hexp he
    simp only [applyTokenJson, hexp]
    cases tok.refresh_token <;> simp [he]
  · intro hexp
    rcases hexp with hexp | hexp <;>
      simp only [applyTokenJson, hexp] <;>
      cases tok.refresh_token <;> simp
  · intro now pd first second h200 hbody
    have hne : ¬ first.status = 429 := by omega
    have hstep : rateLimit429Step now pd first second = (first, [], 0) := by
      simp [rateLimit429Step, hne]
    have h400 : ¬ (400 ≤ first.status ∧ first.status < 600) := by omega
    simp only [updateAccessToken, hstep]
    rw [if_neg h400, hbody]

/-- Witness for C4's amended theorem: a refresh whose 200 response carries a
new refresh token and `expires_in = 7200` persists all three fields. -/
theorem c4_token_refresh_persistence_witness :
    (applyTokenJson ⟨some "oldA", some "R0", some 111, some 3600⟩ 1000
        ⟨"A", some "R1", some (some 7200)⟩).access_token = some "A" ∧
    (applyTokenJson ⟨some "oldA", some "R0", some 111, some 3600⟩ 1000
        ⟨"A", some "R1", some (some 7200)⟩).refresh_token = some "R1" ∧
    (applyTokenJson ⟨some "oldA", some "R0", some 111, some 3600⟩ 1000
        ⟨"A", some "R1", some (some 7200)⟩).expires = some (1000 + 7200) := by
  have h := c4_token_refresh_persistence ⟨some "oldA", some "R0", some 111, some 3600⟩
    1000 ⟨"A", some "R1", some (some 7200)⟩
  exact ⟨h.1, h.2.1 "R1" rfl, h.2.2.2.2.1 7200 rfl (by decide)⟩

/-! ## GL-entries batch fallback (`GeneralLedgerEntriesStream`, streams.py) -/

/-- One GL-entry record as the fallback sees it: its `id` and its
`dimensionSetLines` expansion field — `none` when the record was fetched
without the expansion, `some lines` once it carries one (possibly empty). -/
structure GLRecord where
  id : String
  dimensionSetLines : Option (List String)
deriving DecidableEq, Repr

/-- The three request shapes `_handle_dimension_failure` issues through
`_call_api`, abstracted as oracles keyed by the filter clause (resp. record
id): the chunk request with `$expand=dimensionSetLines`, the chunk request
without it, and the per-record `(id)/dimensionSetLines` sub-resource request.
`Except.error` models the request raising. -/
structure BatchApi where
  withDims : String → Except String (List GLRecord)
  noDims : String → Except String (List GLRecord)
  dims : String → Except String (List String)

/-- The disjunctive id-equality filter of `_fetch_batch_with_dimensions`:
`' or '.join(f"id eq {id}" for id in batch_ids)`. -/
def filterClause (ids : List String) : String :=
  String.intercalate " or " (ids.map (fun i => "id eq " ++ i))

/-- `_fetch_individual_dimensions`: request one record's expansion; on any
failure log and return the empty collection. -/
def fetchIndividualDimensions (api : BatchApi) (glEntryId : String) : List String :=
  match api.dims glEntryId with
  | .ok v => v
  | .error _ => []

/-- `_fetch_batch_without_dimensions`: refetch the chunk without the
expansion and attach each record's individually fetched expansion; if even
the unexpanded chunk request fails, log and return no records. -/
def fetchBatchWithoutDimensions (api : BatchApi) (filterC : String) : List GLRecord :=
  match api.noDims filterC with
  | .ok recs =>
    recs.map (fun r =>
      { r with dimensionSetLines := some (fetchIndividualDimensions api r.id) })
  | .error _ => []

/-- `_fetch_batch_with_dimensions`: request the chunk with the expansion;
on failure fall back to `_fetch_batch_without_dimensions` with the same
filter clause. -/
def fetchBatchWithDimensions (api : BatchApi) (batch : List String) : List GLRecord :=
  match api.withDims (filterClause batch) with
  | .ok recs => recs
  | .error _ => fetchBatchWithoutDimensions api (filterClause batch)

/-- Recursor for the chunking loop of `_fetch_gl_entries_in_batches`: each
step slices off the next 200 ids; the extra `fuel` argument (any upper bound
on the list length) only makes the recursion structural. -/
def chunksOf200Go {α : Type} : Nat → List α → List (List α)
  | _, [] => []
  | 0, _ :: _ => []
  | fuel + 1, x :: xs => ((x :: xs).take 200) :: chunksOf200Go fuel ((x :: xs).drop 200)

/-- The chunking of `_fetch_gl_entries_in_batches`
(`range(0, len(gl_ids), 200)` with slices of 200). -/
def chunksOf200 {α : Type} (xs : List α) : List (List α) :=
  chunksOf200Go xs.length xs

/-- The chunking loop ignores the exact fuel value as long as it bounds the
list length. -/
theorem chunksOf200Go_fuel {α : Type} :
    ∀ (fuelA fuelB : Nat) (xs : List α), xs.length ≤ fuelA → xs.length ≤ fuelB →
      chunksOf200Go fuelA xs = chunksOf200Go fuelB xs := by
  intro fuelA
  induction fuelA with
  | zero =>
    intro fuelB xs hA hB
    cases xs with
    | nil => cases fuelB <;> rfl
    | cons x l => simp at hA
  | succ fuelA ih =>
    intro fuelB xs hA hB
    cases xs with
    | nil => cases fuelB <;> rfl
    | cons x l =>
      cases fuelB with
      | zero => simp at hB
      | succ fuelB =>
        rw [chunksOf200Go, chunksOf200Go]
        have hdA : ((x :: l).drop 200).length ≤ fuelA := by
          simp only [List.length_drop, List.length_cons]
          simp only [List.length_cons] at hA
          omega
        have hdB : ((x :: l).drop 200).length ≤ fuelB := by
          simp only [List.length_drop, List.length_cons]
          simp only [List.length_cons] at hB
          omega
        rw [ih fuelB _ hdA hdB]

/-- Flattening the chunking loop's output restores the list. -/
theorem chunksOf200Go_flatten {α : Type} :
    ∀ (fuel : Nat) (xs : List α), xs.length ≤ fuel →
      (chunksOf200Go fuel xs).flatten = xs := by
  intro fuel
  induction fuel with
  | zero =>
    intro xs h
    cases xs with
    | nil => rfl
    | cons x l => simp at h
  | succ fuel ih =>
    intro xs h
    cases xs with
    | nil => rfl
    | cons x l =>
      rw [chunksOf200Go, List.flatten_cons]
      have hd : ((x :: l).drop 200).length ≤ fuel := by
        simp only [List.length_drop, List.length_cons]
        simp only [List.length_cons] at h
        omega
      rw [ih _ hd, List.take_append_drop]

/-- Flattening the 200-chunks of a list restores the list. -/
theorem chunksOf200_flatten {α : Type} (xs : List α) :
    (chunksOf200 xs).flatten = xs :=
  chunksOf200Go_flatten xs.length xs le_rfl

/-- `_fetch_gl_entries_in_batches`: fetch every chunk in order and accumulate
the records. -/
def fetchGlEntriesInBatches (api : BatchApi) (glIds : List String) : List GLRecord :=
  ((chunksOf200 glIds).map (fetchBatchWithDimensions api)).flatten

/-- A collection response: its `value` record list and the rest of the body,
represented by the continuation link (what `_create_enriched_response`
preserves when it replaces `value`). -/
structure ApiResponse where
  value : List GLRecord
  nextLink : Option NextLink
deriving DecidableEq

/-- `_handle_dimension_failure` + `_create_enriched_response`: take the ids
of the ID-only response, refetch them in chunks, and return the ID-only
response with its `value` replaced by the accumulated enriched records. -/
def handleDimensionFailure (api : BatchApi) (idsResp : ApiResponse) : ApiResponse :=
  { idsResp with value := fetchGlEntriesInBatches api (idsResp.value.map GLRecord.id) }

/-- The named partial-expansion condition tested by `make_request`. -/
def dimValueMarker : String := "Dimension Value does not exist"

/-- `GeneralLedgerEntriesStream.make_request`: return the primary response on
success; on a fatal error whose message contains the dimension marker, run
the fallback over the ID-only refetch; re-raise any other fatal error (and
any failure of the ID-only refetch itself propagates). -/
def makeRequestGL (primary : Except String ApiResponse)
    (idsFetch : Except String ApiResponse) (api : BatchApi) :
    Except String ApiResponse :=
  match primary with
  | .ok resp => .ok resp
  | .error msg =>
    if hasSubstring dimValueMarker.toList msg.toList then
      match idsFetch with
      | .ok idsResp => .ok (handleDimensionFailure api idsResp)
      | .error e => .error e
    else .error msg

/-- C5: when the whole-page request fails with the "Dimension Value does not
exist" condition, the ID-only refetch succeeds, and every 200-chunk request
with the disjunctive id-equality filter plus the expansion succeeds returning
exactly the records of its chunk with the expansion populated, then
`make_request` returns a response that preserves all original IDs in order,
every record's expansion field non-null, and the rest of the response body
(here its continuation link) unchanged. -/
theorem c5_fallback_preserves_ids (msg : String)
    (hmsg : hasSubstring dimValueMarker.toList msg.toList = true)
    (idsResp : ApiResponse) (api : BatchApi)
    (h : ∀ c ∈ chunksOf200 (idsResp.value.map GLRecord.id),
      ∃ recs, api.withDims (filterClause c) = .ok recs ∧
        recs.map GLRecord.id = c ∧ ∀ r ∈ recs, r.dimensionSetLines.isSome) :
    makeRequestGL (.error msg) (.ok idsResp) api =
      .ok (handleDimensionFailure api idsResp) ∧
    (handleDimensionFailure api idsResp).value.map GLRecord.id =
      idsResp.value.map GLRecord.id ∧
    (∀ r ∈ (handleDimensionFailure api idsResp).value, r.dimensionSetLines.isSome) ∧
    (handleDimensionFailure api idsResp).nextLink = idsResp.nextLink := by
  have hfetch : ∀ c ∈ chunksOf200 (idsResp.value.map GLRecord.id),
      (fetchBatchWithDimensions api c).map GLRecord.id = c ∧
      ∀ r ∈ fetchBatchWithDimensions api c, r.dimensionSetLines.isSome := by
    intro c hc
    obtain ⟨recs, hok, hids, hdims⟩ := h c hc
    have : fetchBatchWithDimensions api c = recs := by
      simp [fetchBatchWithDimensions, hok]
    rw [this]
    exact ⟨hids, hdims⟩
  refine ⟨?_, ?_, ?_, rfl⟩
  · simp [makeRequestGL]
    exact hmsg
  · show (fetchGlEntriesInBatches api (idsResp.value.map GLRecord.id)).map GLRecord.id = _
    unfold fetchGlEntriesInBatches
    rw [List.map_flatten, List.map_map]
    have hmapeq : (chunksOf200 (idsResp.value.map GLRecord.id)).map
        (List.map GLRecord.id ∘ fetchBatchWithDimensions api) =
        (chunksOf200 (idsResp.value.map GLRecord.id)).map id :=
      List.map_congr_left (fun c hc => (hfetch c hc).1)
    rw [hmapeq, List.map_id, chunksOf200_flatten]
  · intro r hr
    have hr2 : r ∈ fetchGlEntriesInBatches api (idsResp.value.map GLRecord.id) := hr
    unfold fetchGlEntriesInBatches at hr2
    rw [List.mem_flatten] at hr2
    obtain ⟨l, hl, hrl⟩ := hr2
    rw [List.mem_map] at hl
    obtain ⟨c, hc, rfl⟩ := hl
    exact (hfetch c hc).2 r hrl

/-- C9: during the per-chunk fallback, when a chunk's expanded request fails
and the unexpanded refetch succeeds, the fallback returns the unexpanded
records each enriched with its individually fetched expansion; a record whose
individual sub-resource request fails receives the empty collection as its
expansion; and every returned record carries a non-null expansion — no
failure propagates out of the chunk. -/
theorem c9_individual_dimension_failure_recovered (api : BatchApi)
    (batch : List String) (e : String) (recs : List GLRecord)
    (hfail : api.withDims (filterClause batch) = .error e)
    (hok : api.noDims (filterClause batch) = .ok recs) :
    fetchBatchWithDimensions api batch =
      recs.map (fun r =>
        { r with dimensionSetLines := some (fetchIndividualDimensions api r.id) }) ∧
    (∀ r ∈ recs, ∀ e2, api.dims r.id = .error e2 →
      ({ r with dimensionSetLines := some ([] : List String) } : GLRecord) ∈
        fetchBatchWithDimensions api batch) ∧
    (∀ r2 ∈ fetchBatchWithDimensions api batch, r2.dimensionSetLines.isSome) := by
  have h1 : fetchBatchWithDimensions api batch =
      recs.map (fun r =>
        { r with dimensionSetLines := some (fetchIndividualDimensions api r.id) }) := by
    simp [fetchBatchWithDimensions, hfail, fetchBatchWithoutDimensions, hok]
  refine ⟨h1, ?_, ?_⟩
  · intro r hr e2 he2
    rw [h1, List.mem_map]
    refine ⟨r, hr, ?_⟩
    simp [fetchIndividualDimensions, he2]
  · intro r2 hr2
    rw [h1, List.mem_map] at hr2
    obtain ⟨r, _, rfl⟩ := hr2
    rfl

/-- A concrete API for the C5 scenario: the two-id chunk request with the
expansion succeeds with both records expanded; everything else fails. -/
def c5Api : BatchApi where
  withDims := fun f =>
    if f = "id eq a or id eq b" then
      .ok [⟨"a", some ["d1"]⟩, ⟨"b", some []⟩]
    else .error "Dimension Value does not exist"
  noDims := fun _ => .error "unused"
  dims := fun _ => .error "unused"

/-- The ID-only response of the C5 scenario: ids `a`, `b` and a continuation
link that the enriched response must keep. -/
def c5IdsResp : ApiResponse :=
  ⟨[⟨"a", none⟩, ⟨"b", none⟩], some ⟨[("aid", "9"), ("$skiptoken", "s9")]⟩⟩

/-- Witness for C5 at the concrete scenario: the fallback returns the two
original ids in order and keeps the continuation link. -/
theorem c5_fallback_preserves_ids_witness :
    makeRequestGL (.error "400 Client Error: Dimension Value does not exist")
        (.ok c5IdsResp) c5Api = .ok (handleDimensionFailure c5Api c5IdsResp) ∧
    (handleDimensionFailure c5Api c5IdsResp).value.map GLRecord.id = ["a", "b"] ∧
    (handleDimensionFailure c5Api c5IdsResp).nextLink = c5IdsResp.nextLink := by
  have h := c5_fallback_preserves_ids "400 Client Error: Dimension Value does not exist"
    (by decide) c5IdsResp c5Api
    (by
      intro c hc
      have hch : chunksOf200 (c5IdsResp.value.map GLRecord.id) = [["a", "b"]] := by decide
      rw [hch, List.mem_singleton] at hc
      subst hc
      exact ⟨[⟨"a", some ["d1"]⟩, ⟨"b", some []⟩], rfl, by decide, by decide⟩)
  exact ⟨h.1, by rw [h.2.1]; decide, h.2.2.2⟩

/-- A concrete API for the C9 scenario: the expanded chunk request fails, the
unexpanded one returns the single record `a`, and the individual sub-resource
request fails as well. -/
def c9Api : BatchApi where
  withDims := fun _ => .error "500 Server Error"
  noDims := fun f => if f = "id eq a" then .ok [⟨"a", none⟩] else .error "unused"
  dims := fun _ => .error "503 Server Error"

/-- Witness for C9 at the concrete scenario: the chunk comes back as the one
record with the empty collection substituted for its failed expansion. -/
theorem c9_individual_dimension_failure_recovered_witness :
    fetchBatchWithDimensions c9Api ["a"] =
      [({ id := "a", dimensionSetLines := some [] } : GLRecord)] := by
  have h := c9_individual_dimension_failure_recovered c9Api ["a"] "500 Server Error"
    [⟨"a", none⟩] rfl rfl
  rw [h.1]
  decide

/-! ## Child-sync dedup (`GeneralLedgerEntriesStream._sync_children`) -/

/-- A child stream as `_sync_children` sees it: its name and the two
selection flags checked before syncing. -/
structure ChildStream where
  name : String
  selected : Bool
  hasSelectedDescendents : Bool
deriving DecidableEq, Repr

/-- `_sync_children` for one parent record (streams.py lines 862-871).  The
state is the `synced_doc_nos` set (as a list) plus the log of sync
invocations `(child stream name, gl_doc_no)`.  For each selected child
stream: skip only when it is `vendor_ledger_entries` and the doc number was
already synced; otherwise sync it and add the doc number to the set. -/
def syncChildrenStep (childStreams : List ChildStream)
    (st : List String × List (String × String)) (glDocNo : String) :
    List String × List (String × String) :=
  childStreams.foldl
    (fun acc cs =>
      if cs.selected || cs.hasSelectedDescendents then
        let shouldNotSync :=
          cs.name == "vendor_ledger_entries" && acc.1.contains glDocNo
        if !shouldNotSync then (glDocNo :: acc.1, acc.2 ++ [(cs.name, glDocNo)])
        else acc
      else acc)
    st

/-- One orchestrator run over the parent GL-entry records, identified by
their `documentNumber` (the `gl_doc_no` of `get_child_context`), starting
from the empty `synced_doc_nos`. -/
def runGlChildSync (childStreams : List ChildStream) (docNos : List String) :
    List String × List (String × String) :=
  docNos.foldl (syncChildrenStep childStreams) ([], [])

/-- The single child stream of `GeneralLedgerEntriesIncrementalStream`:
`VendorLedgerEntriesStream`, assumed selected. -/
def vendorLedgerChild : ChildStream :=
  ⟨"vendor_ledger_entries", true, false⟩

/-- One step of the vendor-only child sync, in closed form. -/
theorem syncChildrenStep_vendor (seen : List String) (log : List (String × String))
    (d : String) :
    syncChildrenStep [vendorLedgerChild] (seen, log) d =
      if seen.contains d then (seen, log)
      else (d :: seen, log ++ [("vendor_ledger_entries", d)]) := by
  by_cases hd : seen.contains d <;>
    simp [syncChildrenStep, vendorLedgerChild, hd]

/-- Invocation count of the vendor child for key `k`, from an arbitrary
intermediate state. -/
theorem runGlChildSync_count_go (docNos : List String) :
    ∀ (seen : List String) (log : List (String × String)) (k : String),
      (docNos.foldl (syncChildrenStep [vendorLedgerChild]) (seen, log)).2.count
          ("vendor_ledger_entries", k) =
        log.count ("vendor_ledger_entries", k) +
          (if k ∈ docNos ∧ ¬ k ∈ seen then 1 else 0) := by
  induction docNos with
  | nil => simp
  | cons d rest ih =>
    intro seen log k
    rw [List.foldl_cons, syncChildrenStep_vendor]
    by_cases hd : seen.contains d
    · rw [if_pos hd, ih]
      have hdm : d ∈ seen := by
        rw [← List.elem_iff]
        exact hd
      congr 1
      by_cases hk : k = d
      · subst hk
        simp [hdm]
      · simp [List.mem_cons, hk]
    · rw [if_neg hd, ih, List.count_append]
      have hdm : ¬ d ∈ seen := by
        rw [← List.elem_iff]
        exact fun h => hd h
      by_cases hk : k = d
      · subst hk
        simp [List.mem_cons, hdm, List.count_cons]
      · have hks : (("vendor_ledger_entries", k) : String × String) ∉
            [("vendor_ledger_entries", d)] := by
          simp [hk]
        rw [← List.count_eq_zero] at hks
        rw [hks]
        simp [List.mem_cons, hk]

/-- C6: within one orchestrator run of the GL-entries stream whose child is
`vendor_ledger_entries`, the child sync is invoked exactly once per distinct
document number appearing among the parent records, and never for any other
key — so two parents sharing a document number trigger one child sync, and
two parents with distinct document numbers trigger one each. -/
theorem c6_child_sync_dedup (docNos : List String) (k : String) :
    (runGlChildSync [vendorLedgerChild] docNos).2.count
        ("vendor_ledger_entries", k) =
      if k ∈ docNos then 1 else 0 := by
  unfold runGlChildSync
  rw [runGlChildSync_count_go]
  simp

/-! ## Rolling-window bookmarking (`GeneralLedgerEntriesStream.get_url_params`) -/

/-- A calendar month (the `beginning_of_month` datetime of the source, which
always sits at day 1, 00:00:00). -/
structure MonthDate where
  year : Int
  month : Int
deriving DecidableEq, Repr

/-- `beginning_of_month - relativedelta(months=k)`: total-month arithmetic
with floor normalization (exact for day-1 dates, which is all the source
uses). -/
def monthsBack (d : MonthDate) (k : Nat) : MonthDate :=
  let idx : Int := d.year * 12 + (d.month - 1) - k
  ⟨idx.ediv 12, idx.emod 12 + 1⟩

/-- The `$filter` lower bound chosen by
`GeneralLedgerEntriesStream.get_url_params`: a rolling-window month start, a
plain starting timestamp, or no filter at all. -/
inductive GLFilter
  | rollingSince (d : MonthDate)
  | sinceTimestamp (ts : Int)
  | noFilter
deriving DecidableEq, Repr

/-- `GeneralLedgerEntriesStream._is_initial_sync`: the bookmark-derived
starting timestamp equals the configured start date. -/
def isInitialSyncGL (startingTs : Option Int) (configStart : Int) : Bool :=
  startingTs == some configStart

/-- The filter selection of `GeneralLedgerEntriesStream.get_url_params`
(streams.py lines 716-742): when the run is not the first-ever sync, filter
from the beginning of the current month minus `report_periods - 1` months
(`report_periods` read from config with default 3); otherwise filter from the
bookmark-derived starting timestamp (when there is one). -/
def glGetUrlParamsFilter (startingTs : Option Int) (configStart : Int)
    (today : MonthDate) (reportPeriods : Option Nat) : GLFilter :=
  let rp := reportPeriods.getD 3
  if !(isInitialSyncGL startingTs configStart) then
    .rollingSince (monthsBack today (rp - 1))
  else
    match startingTs with
    | some ts => .sinceTimestamp ts
    | none => .noFilter

/-- C7: when the bookmark-derived starting timestamp differs from the
configured start date (the run is not the resource's first-ever sync), the GL
request filter lower bound is the beginning of the current month minus
`report_periods - 1` months, with `report_periods` defaulting to 3 (i.e. two
months back); when it equals the configured start date, the filter uses the
starting timestamp itself. -/
theorem c7_rolling_window_filter (startingTs : Option Int) (configStart : Int)
    (today : MonthDate) (reportPeriods : Option Nat) :
    (startingTs ≠ some configStart →
      glGetUrlParamsFilter startingTs configStart today reportPeriods =
        .rollingSince (monthsBack today (reportPeriods.getD 3 - 1)) ∧
      glGetUrlParamsFilter startingTs configStart today none =
        .rollingSince (monthsBack today 2)) ∧
    (startingTs = some configStart →
      glGetUrlParamsFilter startingTs configStart today reportPeriods =
        .sinceTimestamp configStart) := by
  constructor
  · intro hne
    have hbeq : (startingTs == some configStart) = false := by
      rw [beq_eq_false_iff_ne]
      exact hne
    constructor <;> simp [glGetUrlParamsFilter, isInitialSyncGL, hbeq]
  · intro heq
    subst heq
    simp [glGetUrlParamsFilter, isInitialSyncGL]

/-- Witness for C7: a bookmark of 5 against a configured start of 9 in
January 2026 with no configured `report_periods` filters from November 2025;
a bookmark equal to the configured start filters from that timestamp. -/
theorem c7_rolling_window_filter_witness :
    glGetUrlParamsFilter (some 5) 9 ⟨2026, 1⟩ none =
      .rollingSince ⟨2025, 11⟩ ∧
    glGetUrlParamsFilter (some 9) 9 ⟨2026, 1⟩ none = .sinceTimestamp 9 := by
  constructor
  · have h := ((c7_rolling_window_filter (some 5) 9 ⟨2026, 1⟩ none).1 (by decide)).2
    rw [h]
    decide
  · exact (c7_rolling_window_filter (some 9) 9 ⟨2026, 1⟩ none).2 rfl

end TapVerify
